import Mathlib

/-!
Shallow embedding of the ajournal work-journal application (a Node.js CLI)
together with proofs about its storage, configuration, filtering and
summarization behaviour.

The definitions below are translated from the JavaScript sources:
  - src/services/storage.js   (StorageService)
  - src/services/ai.js        (AIService.fallbackSummary, describeActivity)
  - src/config/config.js      (ConfigManager.resolveEnvVariables)
  - src/integrations/slack-search.js (SlackSearchIntegration)
  - src/integrations/github.js (GitHubIntegration.filterRepositories)
  - src/integrations/gcal.js   (GCalIntegration.shouldIncludeEvent)

JavaScript objects persisted as JSON are modelled by the inductive `JValue`;
JS objects are association lists of string keys (first occurrence wins on
lookup, assignment updates in place, as in JS object semantics).
-/

namespace AJournal

/-- JSON-like values: the shape of everything the services persist to disk. -/
inductive JValue where
  | str (s : String)
  | num (n : Int)
  | bool (b : Bool)
  | null
  | arr (xs : List JValue)
  | obj (fields : List (String × JValue))

/-- Lookup of a key in a JS object (association list, first match). -/
def alGet (l : List (String × JValue)) (key : String) : Option JValue :=
  (l.find? (fun p => p.1 = key)).map (fun p => p.2)

/-- JS property assignment `o[k] = v`: updates the first binding in place,
or appends a fresh binding at the end (JS insertion order). -/
def alSet (l : List (String × JValue)) (key : String) (val : JValue) :
    List (String × JValue) :=
  match l with
  | [] => [(key, val)]
  | (k, v) :: rest =>
      if k = key then (key, val) :: rest else (k, v) :: alSet rest key val

/-- JS object spread `{...a, ...b}`: assign every binding of `b` over `a`. -/
def alSpread (a b : List (String × JValue)) : List (String × JValue) :=
  b.foldl (fun acc p => alSet acc p.1 p.2) a

/-- Lookup of the last binding of a key (the one JS spread semantics keeps). -/
def alGetLast (l : List (String × JValue)) (key : String) : Option JValue :=
  alGet l.reverse key

/-- Raw-data store: one JSON file per (integration, `yyyy-MM-dd` day),
living under `<rawDataDir>/<integration>/<day>.json`. -/
def RawStore := List ((String × String) × JValue)

/-- Lookup of the raw-data file for (integration, day). -/
def rawFileGet (store : RawStore) (integration day : String) : Option JValue :=
  (store.find? (fun p => p.1 = (integration, day))).map (fun p => p.2)

/-- Write of the raw-data file for (integration, day). -/
def rawFileSet (store : RawStore) (integration day : String) (file : JValue) :
    RawStore :=
  match store with
  | [] => [((integration, day), file)]
  | (k, v) :: rest =>
      if k = (integration, day) then ((integration, day), file) :: rest
      else (k, v) :: rawFileSet rest integration day file

/-- Fields of a JS object spread target: a JSON object contributes its
fields, anything else contributes none (the stored files are objects). -/
def objFieldsOf : Option JValue → List (String × JValue)
  | some (JValue.obj fs) => fs
  | _ => []

/-- StorageService.saveRawData (storage.js lines 94-119): reads the existing
per-day file if present, then writes `{...existingData, timestamp: now,
data: Array.isArray(data) ? data : [data]}` back to the same path. -/
def saveRawData (store : RawStore) (integration day : String) (data : JValue)
    (now : String) : RawStore :=
  let existingFields := objFieldsOf (rawFileGet store integration day)
  let dataArr := match data with
    | JValue.arr xs => JValue.arr xs
    | v => JValue.arr [v]
  let merged := JValue.obj
    (alSet (alSet existingFields "timestamp" (JValue.str now)) "data" dataArr)
  rawFileSet store integration day merged

/-- StorageService.getRawData (storage.js lines 121-135): returns the parsed
JSON file for (integration, day), or null when the file does not exist. -/
def getRawData (store : RawStore) (integration day : String) : Option JValue :=
  rawFileGet store integration day

/-- Sync-state file contents: a JSON object keyed by integration name. -/
def SyncStateFile := List (String × JValue)

/-- StorageService.setSyncState (storage.js lines 77-92): reads the whole
sync-state object, replaces the entry for `integration` with
`{...currentState[integration], ...state, lastSync: now}` and writes the
file back.  `now` is the freshly stamped ISO timestamp. -/
def setSyncState (file : SyncStateFile) (integration : String)
    (state : List (String × JValue)) (now : String) : SyncStateFile :=
  let old := objFieldsOf (alGet file integration)
  let entry := alSet (alSpread old state) "lastSync" (JValue.str now)
  alSet file integration (JValue.obj entry)

/-- Calendar dates (proleptic Gregorian), as date-fns manipulates them. -/
structure CivilDate where
  year : Nat
  month : Nat
  day : Nat
deriving DecidableEq

/-- Day number of a civil date, counted from 0000-03-01 (valid for the
years this application handles); Gregorian calendar arithmetic. -/
def daysFromCivil (date : CivilDate) : Nat :=
  let yp := date.year - (if date.month ≤ 2 then 1 else 0)
  let era := yp / 400
  let yoe := yp % 400
  let mp := (date.month + 9) % 12
  let doy := (153 * mp + 2) / 5 + date.day - 1
  let doe := yoe * 365 + yoe / 4 - yoe / 100 + doy
  era * 146097 + doe

/-- Day of week of a day number: 0 = Sunday ... 6 = Saturday. -/
def dayOfWeek (dn : Nat) : Nat := (dn + 3) % 7

/-- date-fns startOfWeek with weekStartsOn: 1 (Monday), on day numbers. -/
def startOfWeekMonday (dn : Nat) : Nat := dn - ((dayOfWeek dn + 6) % 7)

/-- date-fns getWeekYear with weekStartsOn 1 and the default
firstWeekContainsDate 1: the year whose first week (the Monday-started week
containing January 1) the date falls into. -/
def getWeekYear (date : CivilDate) : Nat :=
  let dn := daysFromCivil date
  let fwNext := startOfWeekMonday (daysFromCivil ⟨date.year + 1, 1, 1⟩)
  let fwThis := startOfWeekMonday (daysFromCivil ⟨date.year, 1, 1⟩)
  if fwNext ≤ dn then date.year + 1
  else if fwThis ≤ dn then date.year
  else date.year - 1

/-- date-fns getWeek(date, { weekStartsOn: 1 }): one plus the number of
whole weeks between the start of the date's week and the start of the
week year's first week. -/
def getWeek (date : CivilDate) : Nat :=
  let wy := getWeekYear date
  (startOfWeekMonday (daysFromCivil date) -
    startOfWeekMonday (daysFromCivil ⟨wy, 1, 1⟩)) / 7 + 1

/-- JS String.prototype.padStart(n, c). -/
def padStart (s : String) (n : Nat) (c : Char) : String :=
  String.mk (List.replicate (n - s.length) c) ++ s

/-- Node path.join on clean path segments. -/
def pathJoin : List String → String
  | [] => ""
  | [p] => p
  | p :: rest => p ++ "/" ++ pathJoin rest

/-- StorageService.getDailyJournalPath (storage.js lines 35-46):
`<outputDir>/daily/<year>/week-<ww>` with the Monday-start week number
zero-padded to two digits. -/
def getDailyJournalPath (outputDir : String) (date : CivilDate) : String :=
  let year := date.year
  let week := getWeek date
  let weekFolder := "week-" ++ padStart (toString week) 2 '0'
  pathJoin [outputDir, "daily", toString year, weekFolder]

/-- date-fns format(date, 'yyyy-MM-dd') — the default journal.dateFormat. -/
def formatYyyyMmDd (date : CivilDate) : String :=
  padStart (toString date.year) 4 '0' ++ "-" ++
    padStart (toString date.month) 2 '0' ++ "-" ++
    padStart (toString date.day) 2 '0'

/-- StorageService.saveJournal (storage.js lines 137-152): the path of the
file written for a date is `<dailyJournalPath>/<yyyy-MM-dd>.md`. -/
def saveJournalFilePath (outputDir : String) (date : CivilDate) : String :=
  let fileName := formatYyyyMmDd date ++ ".md"
  let journalDir := getDailyJournalPath outputDir date
  pathJoin [journalDir, fileName]

/-- Boolean suffix test on strings (JS String.prototype.endsWith). -/
def strEndsWith (s suffix : String) : Bool :=
  suffix.data.isSuffixOf s.data

/-- Boolean test that a string starts with the given text
(JS String.prototype.startsWith). -/
def strStartsWith (s pre : String) : Bool :=
  pre.data.isPrefixOf s.data

/-- Numeric value of a decimal digit character. -/
def digitVal (c : Char) : Nat := c.toNat - '0'.toNat

/-- Decimal digits to a number. -/
def digitsToNat (cs : List Char) : Nat :=
  cs.foldl (fun n c => n * 10 + digitVal c) 0

/-- Match of the daily-journal file-name regex; on success, the date
parsed from the captured `YYYY-MM-DD`. -/
def parseDailyJournalName (f : String) : Option CivilDate :=
  match f.data with
  | [y1, y2, y3, y4, '-', m1, m2, '-', d1, d2, '.', 'm', 'd'] =>
      if y1.isDigit && y2.isDigit && y3.isDigit && y4.isDigit &&
          m1.isDigit && m2.isDigit && d1.isDigit && d2.isDigit then
        some ⟨digitsToNat [y1, y2, y3, y4], digitsToNat [m1, m2],
          digitsToNat [d1, d2]⟩
      else none
  | _ => none

/-- Whether a file name matches the daily journal name pattern
(the regex tested in migrateExistingJournals). -/
def isDailyJournalName (f : String) : Bool :=
  (parseDailyJournalName f).isSome

/-- Match of the weekly-report regex, which requires the file name to end
in `weekly-report-<YYYY-MM-DD>.md`; on success the captured date. -/
def parseWeeklyReportName (f : String) : Option CivilDate :=
  let n := f.data.length
  if 27 ≤ n then
    match (f.data.drop (n - 27)) with
    | 'w' :: 'e' :: 'e' :: 'k' :: 'l' :: 'y' :: '-' :: 'r' :: 'e' :: 'p' ::
        'o' :: 'r' :: 't' :: '-' :: rest =>
        parseDailyJournalName (String.mk rest)
    | _ => none
  else none

/-- StorageService.getReportPath (storage.js lines 48-58). -/
def getReportPath (outputDir rtype : String) (date : CivilDate)
    (fileName : String) : String :=
  pathJoin [outputDir, "reports", rtype, toString date.year, fileName]

/-- The filter migrateExistingJournals applies to pick daily journal
files: Markdown files matching the daily pattern that are not report
files. -/
def migrationDailyFilter (f : String) : Bool :=
  strEndsWith f ".md" && isDailyJournalName f &&
    !strStartsWith f "weekly-report-" && !strStartsWith f "monthly-report-" &&
    !strStartsWith f "quarterly-report-"

/-- The filter migrateExistingJournals applies to pick weekly reports. -/
def migrationWeeklyFilter (f : String) : Bool :=
  strStartsWith f "weekly-report-" && strEndsWith f ".md"

/-- StorageService.migrateExistingJournals (storage.js lines 267-332), as
the move plan it performs: each selected file name paired with the
destination path it is moved to.  Files matching neither filter are left
in place. -/
def migrationMoves (outputDir : String) (files : List String) :
    List (String × String) :=
  let dailyMoves := (files.filter migrationDailyFilter).filterMap fun f =>
    (parseDailyJournalName f).map fun date =>
      (f, pathJoin [getDailyJournalPath outputDir date, f])
  let weeklyMoves := (files.filter migrationWeeklyFilter).filterMap fun f =>
    (parseWeeklyReportName f).map fun date =>
      (f, getReportPath outputDir "weekly" date f)
  dailyMoves ++ weeklyMoves

/-- SlackSearchIntegration.sync day loop (slack-search.js lines 29-64):
starting from the sync range's first calendar day, one searchUserMessages
call is issued per loop iteration and the current day then advances by one
calendar day, until the current day passes the range's last day.  The
result lists the days searched, in order.  Days are modelled as day
numbers. -/
def slackSyncSearchDays (cur endDay : Nat) : List Nat :=
  if h : cur ≤ endDay then cur :: slackSyncSearchDays (cur + 1) endDay else []
termination_by endDay + 1 - cur
decreasing_by omega

/-- The data payload of a collected activity, carrying the fields
AIService.describeActivity reads. -/
structure ActivityData where
  type : String
  channel : String
  text : String
  title : String
  repository : String
  message : String
  eventType : String
  duration : Int

/-- A collected activity: its source integration and its payload. -/
structure Activity where
  source : String
  data : ActivityData

/-- AIService.describeActivity (ai.js lines 232-252): one-line literal
description of an activity, switching on the source. -/
def describeActivity (activity : Activity) : String :=
  let data := activity.data
  if activity.source = "slack" then
    "Slack " ++ data.type ++ " in #" ++ data.channel ++ ": \"" ++
      String.mk (data.text.data.take 50) ++ "...\""
  else if activity.source = "github" then
    if data.type = "pr_created" then
      "GitHub PR created: \"" ++ data.title ++ "\" in " ++ data.repository
    else if data.type = "pr_reviewed" then
      "GitHub PR reviewed: \"" ++ data.title ++ "\" in " ++ data.repository
    else if data.type = "commit" then
      "GitHub commit: \"" ++ data.message ++ "\" in " ++ data.repository
    else
      "GitHub " ++ data.type ++ " in " ++ data.repository
  else if activity.source = "gcal" then
    "Calendar: " ++ data.eventType ++ " \"" ++ data.title ++ "\" (" ++
      toString data.duration ++ "min)"
  else
    activity.source ++ " activity"

/-- AIService.fallbackSummary (ai.js lines 254-273): the deterministic
summary used when the AI call fails; `dateStr` stands for
date.toDateString().  A pure function of its inputs: it performs no
external calls and never throws. -/
def fallbackSummary (activities : List Activity) (dateStr : String) : String :=
  let summary := "# Work Summary for " ++ dateStr ++ "\n\n"
  let slackCount := (activities.filter (fun a => a.source == "slack")).length
  let githubCount := (activities.filter (fun a => a.source == "github")).length
  let calendarCount := (activities.filter (fun a => a.source == "gcal")).length
  let summary := summary ++ "## Activity Overview\n"
  let summary := summary ++ "- **Slack Communications**: " ++
    toString slackCount ++ " activities\n"
  let summary := summary ++ "- **GitHub Activities**: " ++
    toString githubCount ++ " activities\n"
  let summary := summary ++ "- **Calendar Events**: " ++
    toString calendarCount ++ " events\n\n"
  let summary := summary ++ "## Key Activities\n"
  (activities.take 10).foldl
    (fun s a => s ++ "- " ++ describeActivity a ++ "\n") summary

/-- Split a character list into its newline-separated lines. -/
def splitNewlines : List Char → List (List Char)
  | [] => [[]]
  | c :: rest =>
      if c = '\n' then [] :: splitNewlines rest
      else
        match splitNewlines rest with
        | l :: ls => (c :: l) :: ls
        | [] => [[c]]

/-- Whether a line is a Markdown bullet item (starts with a dash and a
space, as every list item this service emits does). -/
def isBulletLine : List Char → Bool
  | '-' :: ' ' :: _ => true
  | _ => false

/-- Number of Markdown bullet lines in a string. -/
def bulletLineCount (s : String) : Nat :=
  ((splitNewlines s.data).filter isBulletLine).length

/-- The closed tail that follows `# Work Summary for <date>` in the
fallback summary of an empty activity list. -/
def emptyFallbackTail : String :=
  "\n\n## Activity Overview\n- **Slack Communications**: 0 activities\n" ++
  "- **GitHub Activities**: 0 activities\n" ++
  "- **Calendar Events**: 0 events\n\n## Key Activities\n"

/-- Atom of the simple regular expressions the connectors build: a literal
character or the wildcard dot. -/
inductive RAtom where
  | lit (c : Char)
  | dot

/-- A regex piece: an atom, possibly under a Kleene star. -/
structure RPiece where
  atom : RAtom
  star : Bool

/-- Interpretation of a pattern character as an atom. -/
def mkAtom (c : Char) : RAtom :=
  if c = '.' then RAtom.dot else RAtom.lit c

/-- Parse of the regex source strings the connectors produce (literal
characters, dots, and postfix stars) into pieces. -/
def parseSimpleRegex : List Char → List RPiece
  | [] => []
  | c :: '*' :: rest => ⟨mkAtom c, true⟩ :: parseSimpleRegex rest
  | [c] => [⟨mkAtom c, false⟩]
  | c :: rest => ⟨mkAtom c, false⟩ :: parseSimpleRegex rest

/-- Whether an atom matches one character. -/
def atomMatches (a : RAtom) (c : Char) : Bool :=
  match a with
  | RAtom.dot => true
  | RAtom.lit l => l = c

/-- Whether the pieces match some prefix of the characters (backtracking
matcher; the fuel only bounds recursion and is always sufficient when at
least pieces + characters + 1). -/
def matchesPre (fuel : Nat) (ps : List RPiece) (cs : List Char) : Bool :=
  match fuel with
  | 0 => false
  | fuel + 1 =>
    match ps with
    | [] => true
    | p :: ps2 =>
        if p.star then
          matchesPre fuel ps2 cs ||
            (match cs with
             | [] => false
             | c :: cs2 => atomMatches p.atom c && matchesPre fuel ps cs2)
        else
          match cs with
          | [] => false
          | c :: cs2 => atomMatches p.atom c && matchesPre fuel ps2 cs2

/-- JS RegExp.prototype.test: an unanchored search — the regex matches
starting at some position of the subject. -/
def regexHasMatch (ps : List RPiece) (cs : List Char) : Bool :=
  (List.range (cs.length + 1)).any fun i =>
    matchesPre (ps.length + cs.length + 1) ps (cs.drop i)

/-- `new RegExp(pattern, 'i').test(target)`: case-insensitive unanchored
search (ASCII case folding, as all configured patterns are ASCII). -/
def jsRegexTestCI (pattern target : String) : Bool :=
  regexHasMatch (parseSimpleRegex (pattern.data.map Char.toLower))
    (target.data.map Char.toLower)

/-- JS `s.replace('*', '.*')` with a string search argument: only the
first `*` occurrence is replaced. -/
def charReplaceFirstStar : List Char → List Char
  | [] => []
  | c :: rest =>
      if c = '*' then '.' :: '*' :: rest
      else c :: charReplaceFirstStar rest

/-- JS `s.replace(/\*/g, '.*')`: every `*` occurrence is replaced. -/
def charReplaceAllStar : List Char → List Char
  | [] => []
  | c :: rest =>
      if c = '*' then '.' :: '*' :: charReplaceAllStar rest
      else c :: charReplaceAllStar rest

/-- Slack shouldIncludeMessage pattern compilation (slack-search.js line
211): `pattern.replace('*', '.*')` — string argument, first star only. -/
def slackCompileChannelPattern (pattern : String) : String :=
  String.mk (charReplaceFirstStar pattern.data)

/-- GitHub filterRepositories pattern compilation (github.js line 272):
`pattern.replace('*', '.*')` — string argument, first star only. -/
def githubCompileRepoPattern (pattern : String) : String :=
  String.mk (charReplaceFirstStar pattern.data)

/-- Calendar shouldIncludeEvent pattern compilation (gcal.js line 194):
`pattern.replace(/\*/g, '.*')` — global regex, every star. -/
def gcalCompileEventPattern (pattern : String) : String :=
  String.mk (charReplaceAllStar pattern.data)

/-- The Slack configuration fields shouldIncludeMessage reads. -/
structure SlackFilterConfig where
  minMessageLength : Nat
  excludeChannels : List String
  excludeChannelPatterns : List String
  trackDMs : Bool

/-- A processed Slack message, with the fields the filter reads. -/
structure SlackMessage where
  text : String
  channel : String
  type : String

/-- SlackSearchIntegration.shouldIncludeMessage (slack-search.js lines
198-223): drops messages shorter than minMessageLength, in excluded exact
channels, in channels matching an excluded pattern (case-insensitive,
unanchored test), and DMs when trackDMs is off. -/
def shouldIncludeMessage (config : SlackFilterConfig)
    (message : SlackMessage) : Bool :=
  if message.text.length < config.minMessageLength then false
  else if config.excludeChannels.contains message.channel then false
  else if config.excludeChannelPatterns.any (fun pattern =>
      jsRegexTestCI (slackCompileChannelPattern pattern) message.channel)
    then false
  else if !config.trackDMs && message.type == "direct_message" then false
  else true

/-- A configuration with the exclusion pattern list `['test-*']` (other
fields as in the shipped defaults). -/
def slackTestConfig : SlackFilterConfig :=
  ⟨10, ["random", "general"], ["test-*"], true⟩

/-- JS String.prototype.includes: substring containment. -/
def strIncludes (s sub : String) : Bool :=
  (List.range (s.data.length + 1)).any fun i =>
    sub.data.isPrefixOf (s.data.drop i)

/-- JS String.prototype.toLowerCase (ASCII case folding, which covers the
keyword comparisons extractIntent performs). -/
def jsToLower (s : String) : String :=
  String.mk (s.data.map Char.toLower)

/-- Question-intent condition of extractIntent (slack-search.js lines
229-231). -/
def questionCond (text : String) : Bool :=
  strIncludes text "?" || strStartsWith (jsToLower text) "how " ||
    strStartsWith (jsToLower text) "what " ||
    strStartsWith (jsToLower text) "why "

/-- Decision-intent condition (lines 234-236). -/
def decisionCond (text : String) : Bool :=
  strIncludes (jsToLower text) "decision" ||
    strIncludes (jsToLower text) "decide" ||
    strIncludes (jsToLower text) "should we"

/-- Status-update condition (lines 239-241). -/
def statusCond (text : String) : Bool :=
  strIncludes (jsToLower text) "update" ||
    strIncludes (jsToLower text) "progress" ||
    strIncludes (jsToLower text) "done" ||
    strIncludes (jsToLower text) "completed"

/-- Coordination condition (lines 244-246). -/
def coordinationCond (text : String) : Bool :=
  strIncludes (jsToLower text) "meeting" ||
    strIncludes (jsToLower text) "schedule" ||
    strIncludes (jsToLower text) "sync" ||
    strIncludes (jsToLower text) "coordinate"

/-- Problem-solving condition (lines 249-251). -/
def problemCond (text : String) : Bool :=
  strIncludes (jsToLower text) "issue" ||
    strIncludes (jsToLower text) "problem" ||
    strIncludes (jsToLower text) "bug" ||
    strIncludes (jsToLower text) "error"

/-- Information-sharing condition (lines 254-256). -/
def infoCond (text : String) : Bool :=
  strIncludes (jsToLower text) "fyi" ||
    strIncludes (jsToLower text) "heads up" ||
    strIncludes (jsToLower text) "announcement"

/-- The intent list assembled from the six condition outcomes, in push
order, with the `['general_communication']` fallback when empty. -/
def extractIntentCore (q d s c p i : Bool) : List String :=
  let intents :=
    (if q then ["question"] else []) ++
    (if d then ["decision"] else []) ++
    (if s then ["status_update"] else []) ++
    (if c then ["coordination"] else []) ++
    (if p then ["problem_solving"] else []) ++
    (if i then ["information_sharing"] else [])
  if intents.length > 0 then intents else ["general_communication"]

/-- SlackSearchIntegration.extractIntent (slack-search.js lines 225-260);
the channel-name argument is accepted and unused, as in the source. -/
def extractIntent (text channelName : String) : List String :=
  extractIntentCore (questionCond text) (decisionCond text) (statusCond text)
    (coordinationCond text) (problemCond text) (infoCond text)

/-- ConfigManager.resolveEnvVariables string case (config.js lines 80-85):
the global replace of the env-var placeholder regex.  Scanning left to
right, a dollar-brace placeholder with a non-empty brace-free name is
replaced by the looked-up environment value when that value is set and
truthy (non-empty); a falsy (empty) or missing value keeps the matched
placeholder text.  Everything else is copied unchanged. -/
def resolveEnvChars (env : String → Option String) : List Char → List Char
  | [] => []
  | c :: rest =>
      if c = '$' ∧ rest.head? = some '{' then
        let body := rest.tail
        let name := body.takeWhile (fun ch => ch != '}')
        if name ≠ [] ∧ name.length < body.length then
          (match env (String.mk name) with
           | some v =>
              if v = "" then '$' :: '{' :: (name ++ ['}']) else v.data
           | none => '$' :: '{' :: (name ++ ['}'])) ++
            resolveEnvChars env (body.drop (name.length + 1))
        else
          c :: resolveEnvChars env rest
      else
        c :: resolveEnvChars env rest
termination_by cs => cs.length
decreasing_by
  all_goals simp [List.length_drop, List.length_tail]
  all_goals omega

/-- The string case of resolveEnvVariables at String type. -/
def resolveEnvString (env : String → Option String) (s : String) : String :=
  String.mk (resolveEnvChars env s.data)

mutual

/-- ConfigManager.resolveEnvVariables (config.js lines 80-96): strings get
placeholder substitution, arrays resolve element-wise, objects resolve
value-wise, anything else is returned unchanged. -/
def resolveEnvVariables (env : String → Option String) : JValue → JValue
  | JValue.str s => JValue.str (resolveEnvString env s)
  | JValue.arr xs => JValue.arr (resolveEnvList env xs)
  | JValue.obj fs => JValue.obj (resolveEnvFields env fs)
  | v => v

/-- Array elements of resolveEnvVariables, element-wise. -/
def resolveEnvList (env : String → Option String) :
    List JValue → List JValue
  | [] => []
  | x :: xs => resolveEnvVariables env x :: resolveEnvList env xs

/-- Object entries of resolveEnvVariables, value-wise. -/
def resolveEnvFields (env : String → Option String) :
    List (String × JValue) → List (String × JValue)
  | [] => []
  | (k, v) :: fs => (k, resolveEnvVariables env v) :: resolveEnvFields env fs

end

/-- The environment used by the C7 counterexample: the variable EMPTY is
set, to the empty string. -/
def envWithEmptyVar : String → Option String :=
  fun n => if n = "EMPTY" then some "" else none

theorem alGet_alSet_same (l : List (String × JValue)) (k : String) (v : JValue) :
    alGet (alSet l k v) k = some v := by
  induction l with
  | nil => simp [alGet, alSet, List.find?]
  | cons p rest ih =>
      obtain ⟨k1, v1⟩ := p
      by_cases h : k1 = k
      · simp [alSet, h, alGet, List.find?]
      · simp only [alSet, if_neg h]
        simpa [alGet, List.find?, h] using ih

theorem alGet_alSet_other (l : List (String × JValue)) (k k2 : String)
    (v : JValue) (hne : k2 ≠ k) : alGet (alSet l k v) k2 = alGet l k2 := by
  have hks : k ≠ k2 := fun h => hne h.symm
  induction l with
  | nil => simp [alGet, alSet, List.find?, hks]
  | cons p rest ih =>
      obtain ⟨k1, v1⟩ := p
      by_cases h : k1 = k
      · subst h
        simp [alSet, alGet, List.find?, hks]
      · simp only [alSet, if_neg h]
        by_cases h2 : k1 = k2
        · simp [alGet, List.find?, h2]
        · simpa [alGet, List.find?, h2] using ih

theorem rawFileGet_rawFileSet_same (store : RawStore) (integration day : String)
    (file : JValue) :
    rawFileGet (rawFileSet store integration day file) integration day =
      some file := by
  induction store with
  | nil => simp [rawFileGet, rawFileSet, List.find?]
  | cons p rest ih =>
      obtain ⟨k1, v1⟩ := p
      by_cases h : k1 = (integration, day)
      · simp [rawFileSet, h, rawFileGet, List.find?]
      · simp only [rawFileSet, if_neg h]
        simpa [rawFileGet, List.find?, h] using ih

/-- C1: saving raw data twice for the same (integration, day) leaves a file
whose `data` field is exactly the second call's array; the first call's
activities are discarded (overwrite, not append), and getRawData returns
that file. -/
theorem saveRawData_twice_data_eq_second
    (store : RawStore) (integration day : String)
    (d1 d2 : List JValue) (t1 t2 : String) :
    ∃ fields,
      getRawData
          (saveRawData (saveRawData store integration day (JValue.arr d1) t1)
            integration day (JValue.arr d2) t2) integration day
        = some (JValue.obj fields)
      ∧ alGet fields "data" = some (JValue.arr d2) := by
  simp only [getRawData, saveRawData, rawFileGet_rawFileSet_same, objFieldsOf]
  exact ⟨_, rfl, alGet_alSet_same _ _ _⟩

theorem alGetLast_nil (k : String) : alGetLast [] k = none := rfl

theorem alGet_cons (p : String × JValue) (rest : List (String × JValue))
    (k : String) :
    alGet (p :: rest) k = if p.1 = k then some p.2 else alGet rest k := by
  obtain ⟨k1, v1⟩ := p
  by_cases h : k1 = k <;> simp [alGet, List.find?, h]

theorem alGetLast_cons (p : String × JValue) (rest : List (String × JValue))
    (k : String) :
    alGetLast (p :: rest) k =
      (alGetLast rest k).or (if p.1 = k then some p.2 else none) := by
  obtain ⟨k1, v1⟩ := p
  unfold alGetLast alGet
  simp only [List.reverse_cons, List.find?_append]
  cases hfind : List.find? (fun q => q.1 = k) rest.reverse with
  | none =>
      by_cases h : k1 = k <;>
        simp [List.find?, h, Option.or, hfind]
  | some q =>
      by_cases h : k1 = k <;>
        simp [List.find?, h, Option.or, hfind]

/-- Spread lookup: a key resolves to its last binding in `b` when `b` binds
it (later assignments win), and to its binding in `a` otherwise. -/
theorem alGet_alSpread (a b : List (String × JValue)) (k : String) :
    alGet (alSpread a b) k = (alGetLast b k).or (alGet a k) := by
  induction b generalizing a with
  | nil => simp [alSpread, alGetLast_nil, Option.or]
  | cons p rest ih =>
      obtain ⟨k1, v1⟩ := p
      have hstep : alSpread a ((k1, v1) :: rest) = alSpread (alSet a k1 v1) rest := by
        simp [alSpread]
      rw [hstep, ih, alGetLast_cons]
      by_cases h : k1 = k
      · subst h
        cases hlast : alGetLast rest k1 with
        | none => simp [Option.or, alGet_alSet_same]
        | some v => simp [Option.or]
      · have hks : k ≠ k1 := fun hh => h hh.symm
        cases hlast : alGetLast rest k with
        | none => simp [Option.or, h, alGet_alSet_other _ _ _ _ hks]
        | some v => simp [Option.or]

/-- C8: setSyncState writes an entry for the integration that carries the
freshly stamped `lastSync` timestamp and merges the partial state over the
integration's prior fields (the new state wins key-wise, prior fields
survive otherwise); every other integration's entry is left unchanged and
no entry is deleted. -/
theorem setSyncState_fresh_stamp_and_frame
    (file : SyncStateFile) (integration : String)
    (state : List (String × JValue)) (now : String) :
    ∃ entry,
      alGet (setSyncState file integration state now) integration
        = some (JValue.obj entry)
      ∧ alGet entry "lastSync" = some (JValue.str now)
      ∧ (∀ k, k ≠ "lastSync" →
          alGet entry k =
            (alGetLast state k).or
              (alGet (objFieldsOf (alGet file integration)) k))
      ∧ (∀ y, y ≠ integration →
          alGet (setSyncState file integration state now) y = alGet file y)
      ∧ (∀ y, (alGet file y).isSome →
          (alGet (setSyncState file integration state now) y).isSome) := by
  refine ⟨alSet (alSpread (objFieldsOf (alGet file integration)) state)
      "lastSync" (JValue.str now), ?_, ?_, ?_, ?_, ?_⟩
  · exact alGet_alSet_same _ _ _
  · exact alGet_alSet_same _ _ _
  · intro k hk
    rw [alGet_alSet_other _ _ _ _ hk, alGet_alSpread]
  · intro y hy
    exact alGet_alSet_other _ _ _ _ hy
  · intro y hsome
    by_cases hy : y = integration
    · subst hy
      simp [setSyncState, alGet_alSet_same]
    · rw [show alGet (setSyncState file integration state now) y = alGet file y
          from alGet_alSet_other _ _ _ _ hy]
      exact hsome

/-- The concrete daily-journal location for 2024-01-15, shared by the
journal-save and the migration developments. -/
theorem dailyPath_2024_01_15 (outputDir : String) :
    pathJoin [getDailyJournalPath outputDir ⟨2024, 1, 15⟩, "2024-01-15.md"] =
      outputDir ++ "/daily/2024/week-03/2024-01-15.md" := by
  show pathJoin [pathJoin [outputDir, "daily", toString (2024 : Nat),
      "week-" ++ padStart (toString (getWeek ⟨2024, 1, 15⟩)) 2 '0'],
      "2024-01-15.md"] = _
  have hweek : getWeek ⟨2024, 1, 15⟩ = 3 := by decide
  rw [hweek]
  show (outputDir ++ "/" ++ ("daily" ++ "/" ++ ("2024" ++ "/" ++
      ("week-" ++ padStart (toString (3 : Nat)) 2 '0')))) ++ "/" ++
      "2024-01-15.md" = _
  simp only [String.append_assoc]
  congr 1

/-- C3: the journal file saved for 2024-01-15 is
`<outputDir>/daily/2024/week-03/2024-01-15.md` (year 2024, Monday-start
week 3, zero-padded to two digits). -/
theorem saveJournalFilePath_2024_01_15 (outputDir : String) :
    saveJournalFilePath outputDir ⟨2024, 1, 15⟩ =
      outputDir ++ "/daily/2024/week-03/2024-01-15.md" := by
  show pathJoin [getDailyJournalPath outputDir ⟨2024, 1, 15⟩,
      formatYyyyMmDd ⟨2024, 1, 15⟩ ++ ".md"] = _
  have hname : formatYyyyMmDd ⟨2024, 1, 15⟩ ++ ".md" = "2024-01-15.md" := by
    decide
  rw [hname]
  exact dailyPath_2024_01_15 outputDir

/-- C6: migration moves the legacy flat file `2024-01-15.md` to
`daily/2024/week-03/2024-01-15.md` under the output directory, and any
file matching neither the `YYYY-MM-DD.md` pattern nor the weekly-report
prefix is skipped: it appears in no move. -/
theorem migrateExistingJournals_moves_and_skips :
    (∀ outputDir : String,
      migrationMoves outputDir ["2024-01-15.md"] =
        [("2024-01-15.md", outputDir ++ "/daily/2024/week-03/2024-01-15.md")])
    ∧ (∀ (outputDir : String) (files : List String) (f : String),
        isDailyJournalName f = false →
        strStartsWith f "weekly-report-" = false →
        f ∉ (migrationMoves outputDir files).map Prod.fst) := by
  constructor
  · intro outputDir
    have hd : migrationDailyFilter "2024-01-15.md" = true := by decide
    have hw : migrationWeeklyFilter "2024-01-15.md" = false := by decide
    have hp : parseDailyJournalName "2024-01-15.md" = some ⟨2024, 1, 15⟩ := by
      decide
    have hmain : migrationMoves outputDir ["2024-01-15.md"] =
        [("2024-01-15.md",
          pathJoin [getDailyJournalPath outputDir ⟨2024, 1, 15⟩,
            "2024-01-15.md"])] := by
      simp [migrationMoves, hd, hw, hp]
    rw [hmain, dailyPath_2024_01_15 outputDir]
  · intro outputDir files f hdaily hweekly hmem
    simp only [migrationMoves, List.map_append, List.mem_append] at hmem
    rcases hmem with hmem | hmem
    · obtain ⟨x, hx, hxf⟩ := List.mem_map.mp hmem
      obtain ⟨g2, hg2mem, hopt⟩ := List.mem_filterMap.mp hx
      cases hparse : parseDailyJournalName g2 with
      | none => rw [hparse] at hopt; exact absurd hopt (by simp)
      | some date =>
          rw [hparse] at hopt
          simp only [Option.map_some'] at hopt
          cases hopt
          simp only at hxf
          subst hxf
          have hname : isDailyJournalName g2 = true := by
            simp [isDailyJournalName, hparse]
          rw [hdaily] at hname
          exact Bool.false_ne_true hname
    · obtain ⟨x, hx, hxf⟩ := List.mem_map.mp hmem
      obtain ⟨g2, hg2mem, hopt⟩ := List.mem_filterMap.mp hx
      cases hparse : parseWeeklyReportName g2 with
      | none => rw [hparse] at hopt; exact absurd hopt (by simp)
      | some date =>
          rw [hparse] at hopt
          simp only [Option.map_some'] at hopt
          cases hopt
          simp only at hxf
          subst hxf
          have hfilt := (List.mem_filter.mp hg2mem).2
          simp only [migrationWeeklyFilter, Bool.and_eq_true] at hfilt
          rw [hweekly] at hfilt
          exact Bool.false_ne_true hfilt.1

theorem slackSyncSearchDays_eq_range :
    ∀ (n cur endDay : Nat), endDay + 1 - cur = n →
      slackSyncSearchDays cur endDay =
        (List.range n).map (fun i => cur + i) := by
  intro n
  induction n with
  | zero =>
      intro cur endDay h
      rw [slackSyncSearchDays]
      have hc : ¬ cur ≤ endDay := by omega
      simp [hc]
  | succ k ih =>
      intro cur endDay h
      rw [slackSyncSearchDays]
      have hc : cur ≤ endDay := by omega
      rw [dif_pos hc, ih (cur + 1) endDay (by omega)]
      rw [List.range_succ_eq_map, List.map_cons, List.map_map]
      refine congrArg₂ _ (by omega) ?_
      exact List.map_congr_left fun i _ => by simp; omega

/-- C5: for a day range with start at most end, the chat connector's sync
issues exactly one per-day search for every calendar day of the range,
inclusive of both endpoints, and the number of searches equals the number
of calendar days in the range. -/
theorem slackSync_one_search_per_day (startDay endDay : Nat)
    (hle : startDay ≤ endDay) :
    (slackSyncSearchDays startDay endDay).length = endDay - startDay + 1
    ∧ (∀ d, d ∈ slackSyncSearchDays startDay endDay ↔
        startDay ≤ d ∧ d ≤ endDay)
    ∧ (∀ d, startDay ≤ d → d ≤ endDay →
        (slackSyncSearchDays startDay endDay).count d = 1) := by
  have heq := slackSyncSearchDays_eq_range (endDay + 1 - startDay)
    startDay endDay rfl
  have hnodup : (slackSyncSearchDays startDay endDay).Nodup := by
    rw [heq]
    refine List.Nodup.map ?_ (List.nodup_range _)
    intro a b hab
    have hab2 : startDay + a = startDay + b := hab
    omega
  have hmem : ∀ d, d ∈ slackSyncSearchDays startDay endDay ↔
      startDay ≤ d ∧ d ≤ endDay := by
    intro d
    rw [heq]
    simp only [List.mem_map, List.mem_range]
    constructor
    · rintro ⟨i, hi, rfl⟩
      omega
    · rintro ⟨h1, h2⟩
      exact ⟨d - startDay, by omega, by omega⟩
  refine ⟨?_, hmem, ?_⟩
  · rw [heq]
    simp only [List.length_map, List.length_range]
    omega
  · intro d h1 h2
    have hd : d ∈ slackSyncSearchDays startDay endDay := (hmem d).mpr ⟨h1, h2⟩
    have hle1 := List.nodup_iff_count_le_one.mp hnodup d
    have hpos := List.count_pos_iff.mpr hd
    omega

/-- Witness: the three-day range 10..12 is searched on exactly the days
10, 11 and 12, once each. -/
theorem slackSync_one_search_per_day_witness :
    (slackSyncSearchDays 10 12).length = 12 - 10 + 1
    ∧ (∀ d, d ∈ slackSyncSearchDays 10 12 ↔ 10 ≤ d ∧ d ≤ 12)
    ∧ (∀ d, 10 ≤ d → d ≤ 12 → (slackSyncSearchDays 10 12).count d = 1) :=
  slackSync_one_search_per_day 10 12 (by decide)

/-- C4 counterexample: with zero activities the fallback summary still
contains bullet items — the three Activity Overview count bullets — so
its bullet-line count is not zero. -/
theorem fallbackSummary_empty_has_bullets :
    bulletLineCount (fallbackSummary [] "Mon Jan 15 2024") = 3 ∧
    bulletLineCount (fallbackSummary [] "Mon Jan 15 2024") ≠ 0 := by
  decide

/-- C4 (amended): for every date string, the fallback summary of an empty
activity list is exactly the literal header `# Work Summary for <date>`
followed by an overview of three zero-count bullet lines and an empty Key
Activities section (zero activity bullets); as a total pure function it
performs no external calls and never throws. -/
theorem fallbackSummary_empty_characterization :
    (∀ dateStr : String,
      fallbackSummary [] dateStr =
        "# Work Summary for " ++ dateStr ++ emptyFallbackTail)
    ∧ bulletLineCount emptyFallbackTail = 3
    ∧ strEndsWith emptyFallbackTail "## Key Activities\n" = true := by
  refine ⟨?_, by decide, by decide⟩
  intro dateStr
  show ((((("# Work Summary for " ++ dateStr ++ "\n\n") ++
      "## Activity Overview\n" ++ "- **Slack Communications**: " ++
      toString (List.length (List.filter (fun a => a.source == "slack") [])) ++
      " activities\n") ++ "- **GitHub Activities**: " ++
      toString (List.length (List.filter (fun a => a.source == "github") [])) ++
      " activities\n") ++ "- **Calendar Events**: " ++
      toString (List.length (List.filter (fun a => a.source == "gcal") [])) ++
      " events\n\n") ++ "## Key Activities\n") = _
  simp only [List.filter_nil, List.length_nil, String.append_assoc]
  congr 1

/-- C2 counterexample: with patterns `['test-*']` a long message in
channel `test` is NOT excluded (the compiled regex `test-.*` finds no
`test-` substring in `test`), while channel `contest-1` IS excluded (the
test is an unanchored substring search, not anchored): both contradict
the claim. -/
theorem shouldIncludeMessage_not_anchored :
    shouldIncludeMessage slackTestConfig
        ⟨"hello this is a long message", "test", "public_channel_message"⟩
      = true
    ∧ shouldIncludeMessage slackTestConfig
        ⟨"hello this is a long message", "contest-1",
          "public_channel_message"⟩
      = false := by
  constructor <;> decide

/-- C2 (amended): with the exclusion pattern list `['test-*']`, for any
message text passing the length filter in a public channel, the filter
excludes channels `test-foo` and `contest-1` (the compiled `test-.*`
regex is matched case-insensitively as an unanchored substring search)
but does not exclude channel `test`. -/
theorem shouldIncludeMessage_glob_unanchored
    (text : String) (hlen : 10 ≤ text.length) :
    shouldIncludeMessage slackTestConfig
        ⟨text, "test-foo", "public_channel_message"⟩ = false
    ∧ shouldIncludeMessage slackTestConfig
        ⟨text, "contest-1", "public_channel_message"⟩ = false
    ∧ shouldIncludeMessage slackTestConfig
        ⟨text, "test", "public_channel_message"⟩ = true := by
  have h : ¬ (text.length < 10) := by omega
  refine ⟨?_, ?_, ?_⟩ <;>
    · show (if text.length < 10 then false else _) = _
      rw [if_neg h]
      rfl

/-- Witness for the amended C2 statement at a concrete message text. -/
theorem shouldIncludeMessage_glob_unanchored_witness :
    shouldIncludeMessage slackTestConfig
        ⟨"hello this is a long message", "test-foo",
          "public_channel_message"⟩ = false
    ∧ shouldIncludeMessage slackTestConfig
        ⟨"hello this is a long message", "contest-1",
          "public_channel_message"⟩ = false
    ∧ shouldIncludeMessage slackTestConfig
        ⟨"hello this is a long message", "test",
          "public_channel_message"⟩ = true :=
  shouldIncludeMessage_glob_unanchored "hello this is a long message"
    (by decide)

theorem charReplaceFirstStar_append (a b : List Char) (ha : '*' ∉ a) :
    charReplaceFirstStar (a ++ '*' :: b) = a ++ '.' :: '*' :: b := by
  induction a with
  | nil => simp [charReplaceFirstStar]
  | cons c rest ih =>
      have hc : c ≠ '*' := fun hcc => ha (hcc ▸ List.mem_cons_self c rest)
      have hrest : '*' ∉ rest := fun hr => ha (List.mem_cons_of_mem c hr)
      simp [charReplaceFirstStar, hc, ih hrest]

theorem charReplaceAllStar_append (a b : List Char) (ha : '*' ∉ a) :
    charReplaceAllStar (a ++ '*' :: b) =
      a ++ '.' :: '*' :: charReplaceAllStar b := by
  induction a with
  | nil => simp [charReplaceAllStar]
  | cons c rest ih =>
      have hc : c ≠ '*' := fun hcc => ha (hcc ▸ List.mem_cons_self c rest)
      have hrest : '*' ∉ rest := fun hr => ha (List.mem_cons_of_mem c hr)
      simp [charReplaceAllStar, hc, ih hrest]

/-- C10: the Slack channel filter and the GitHub repository filter compile
an exclusion pattern by replacing only the first `*` (string-argument
replace), passing any later `*` through unconverted, while the calendar
event filter replaces every `*` (global replace). -/
theorem compilePattern_first_star_only
    (a b : List Char) (ha : '*' ∉ a) :
    slackCompileChannelPattern (String.mk (a ++ '*' :: b)) =
      String.mk (a ++ '.' :: '*' :: b)
    ∧ githubCompileRepoPattern (String.mk (a ++ '*' :: b)) =
      String.mk (a ++ '.' :: '*' :: b)
    ∧ gcalCompileEventPattern (String.mk (a ++ '*' :: b)) =
      String.mk (a ++ '.' :: '*' :: charReplaceAllStar b) :=
  ⟨congrArg String.mk (charReplaceFirstStar_append a b ha),
    congrArg String.mk (charReplaceFirstStar_append a b ha),
    congrArg String.mk (charReplaceAllStar_append a b ha)⟩

/-- Witness for C10 on the pattern `ab*c*d` (two stars, none in the
leading segment). -/
theorem compilePattern_first_star_only_witness :
    slackCompileChannelPattern (String.mk (['a', 'b'] ++ '*' :: ['c', '*', 'd'])) =
      String.mk (['a', 'b'] ++ '.' :: '*' :: ['c', '*', 'd'])
    ∧ githubCompileRepoPattern (String.mk (['a', 'b'] ++ '*' :: ['c', '*', 'd'])) =
      String.mk (['a', 'b'] ++ '.' :: '*' :: ['c', '*', 'd'])
    ∧ gcalCompileEventPattern (String.mk (['a', 'b'] ++ '*' :: ['c', '*', 'd'])) =
      String.mk (['a', 'b'] ++ '.' :: '*' ::
        charReplaceAllStar ['c', '*', 'd']) :=
  compilePattern_first_star_only ['a', 'b'] ['c', '*', 'd'] (by decide)

theorem extractIntentCore_spec : ∀ q d s c p i : Bool,
    extractIntentCore q d s c p i ≠ []
    ∧ ("question" ∈ extractIntentCore q d s c p i ↔ q = true)
    ∧ ("decision" ∈ extractIntentCore q d s c p i ↔ d = true)
    ∧ ("status_update" ∈ extractIntentCore q d s c p i ↔ s = true)
    ∧ ("coordination" ∈ extractIntentCore q d s c p i ↔ c = true)
    ∧ ("problem_solving" ∈ extractIntentCore q d s c p i ↔ p = true)
    ∧ ("information_sharing" ∈ extractIntentCore q d s c p i ↔ i = true)
    ∧ (q = false → d = false → s = false → c = false → p = false →
        i = false → extractIntentCore q d s c p i =
          ["general_communication"]) := by
  intro q d s c p i
  cases q <;> cases d <;> cases s <;> cases c <;> cases p <;> cases i <;>
    exact ⟨by decide, by decide, by decide, by decide, by decide, by decide,
      by decide, by decide⟩

/-- C9: extractIntent always returns a non-empty list; each keyword
category's label is in the result exactly when its condition holds on the
message text, and when no condition holds the result is exactly
`['general_communication']`. -/
theorem extractIntent_nonempty_complete (text channelName : String) :
    extractIntent text channelName ≠ []
    ∧ ("question" ∈ extractIntent text channelName ↔
        questionCond text = true)
    ∧ ("decision" ∈ extractIntent text channelName ↔
        decisionCond text = true)
    ∧ ("status_update" ∈ extractIntent text channelName ↔
        statusCond text = true)
    ∧ ("coordination" ∈ extractIntent text channelName ↔
        coordinationCond text = true)
    ∧ ("problem_solving" ∈ extractIntent text channelName ↔
        problemCond text = true)
    ∧ ("information_sharing" ∈ extractIntent text channelName ↔
        infoCond text = true)
    ∧ (questionCond text = false → decisionCond text = false →
        statusCond text = false → coordinationCond text = false →
        problemCond text = false → infoCond text = false →
        extractIntent text channelName = ["general_communication"]) :=
  extractIntentCore_spec (questionCond text) (decisionCond text)
    (statusCond text) (coordinationCond text) (problemCond text)
    (infoCond text)

theorem takeWhile_append_brace (name q : List Char) (h : '}' ∉ name) :
    (name ++ '}' :: q).takeWhile (fun ch => ch != '}') = name := by
  induction name with
  | nil => simp [List.takeWhile_cons]
  | cons c cs ih =>
      have hc : c ≠ '}' := fun hcc => h (hcc ▸ List.mem_cons_self c cs)
      have hcs : '}' ∉ cs := fun hcc => h (List.mem_cons_of_mem c hcc)
      simp [List.takeWhile_cons, hc, ih hcs]

theorem drop_append_brace (name q : List Char) :
    (name ++ '}' :: q).drop (name.length + 1) = q := by
  have h : name ++ '}' :: q = (name ++ ['}']) ++ q := by simp
  have h2 : name.length + 1 = (name ++ ['}']).length := by simp
  rw [h, h2, List.drop_left]

theorem resolveEnvChars_nil (env : String → Option String) :
    resolveEnvChars env [] = [] := by
  rw [resolveEnvChars.eq_1]

theorem resolveEnvChars_placeholder (env : String → Option String)
    (name q : List Char) (hname : name ≠ []) (hbrace : '}' ∉ name) :
    resolveEnvChars env ('$' :: '{' :: (name ++ '}' :: q)) =
      (match env (String.mk name) with
       | some v => if v = "" then '$' :: '{' :: (name ++ ['}']) else v.data
       | none => '$' :: '{' :: (name ++ ['}'])) ++ resolveEnvChars env q := by
  rw [resolveEnvChars.eq_2]
  have hcond : ('$' : Char) = '$' ∧
      ('{' :: (name ++ '}' :: q)).head? = some '{' := by simp
  rw [if_pos hcond]
  have htail : ('{' :: (name ++ '}' :: q)).tail = name ++ '}' :: q := rfl
  simp only [htail, takeWhile_append_brace name q hbrace]
  have hlen : name ≠ [] ∧ name.length < (name ++ '}' :: q).length := by
    refine ⟨hname, ?_⟩
    simp only [List.length_append, List.length_cons]
    omega
  rw [if_pos hlen, drop_append_brace]

theorem resolveEnvChars_append_nodollar (env : String → Option String)
    (p rest : List Char) (hp : '$' ∉ p) :
    resolveEnvChars env (p ++ rest) = p ++ resolveEnvChars env rest := by
  induction p with
  | nil => simp
  | cons c cs ih =>
      have hc : c ≠ '$' := fun hcc => hp (hcc ▸ List.mem_cons_self c cs)
      have hcs : '$' ∉ cs := fun hcc => hp (List.mem_cons_of_mem c hcc)
      rw [List.cons_append, resolveEnvChars.eq_2]
      rw [if_neg (fun hand => hc hand.1)]
      rw [ih hcs]
      rfl

theorem resolveEnvList_eq_map (env : String → Option String)
    (xs : List JValue) :
    resolveEnvList env xs = xs.map (resolveEnvVariables env) := by
  induction xs with
  | nil => rw [resolveEnvList, List.map_nil]
  | cons x rest ih => rw [resolveEnvList, List.map_cons, ih]

theorem resolveEnvFields_eq_map (env : String → Option String)
    (fs : List (String × JValue)) :
    resolveEnvFields env fs =
      fs.map (fun kv => (kv.1, resolveEnvVariables env kv.2)) := by
  induction fs with
  | nil => rw [resolveEnvFields, List.map_nil]
  | cons kv rest ih =>
      obtain ⟨k, v⟩ := kv
      rw [resolveEnvFields, List.map_cons, ih]

/-- C7 counterexample: with the variable EMPTY set to the empty string,
the placeholder for EMPTY is left untouched instead of being replaced by
the (empty) value — the truthiness check `process.env[envVar] || match`
treats the set-but-empty variable like an unset one. -/
theorem resolveEnv_set_empty_keeps_placeholder :
    envWithEmptyVar "EMPTY" = some ""
    ∧ resolveEnvString envWithEmptyVar "${EMPTY}" = "${EMPTY}"
    ∧ ("${EMPTY}" : String) ≠ "" := by
  refine ⟨rfl, ?_, by decide⟩
  show String.mk (resolveEnvChars envWithEmptyVar
      ('$' :: '{' :: (['E', 'M', 'P', 'T', 'Y'] ++ '}' :: []))) = _
  rw [resolveEnvChars_placeholder envWithEmptyVar ['E', 'M', 'P', 'T', 'Y'] []
    (by decide) (by decide)]
  rw [resolveEnvChars_nil]
  rfl

/-- C7 (amended): scanning any configuration string made of a dollar-free
prefix, a placeholder with a non-empty brace-free name and a remainder:
the placeholder is replaced by the environment value when the variable is
set to a non-empty value, and is left untouched when the variable is
unset — and likewise (contrary to the claim as stated) when it is set to
the empty string; the substitution recurses into the remainder, and
resolveEnvVariables applies it recursively through nested arrays and
objects, leaving other scalars unchanged. -/
theorem resolveEnvVariables_substitution (env : String → Option String)
    (p name q : List Char) (v : String)
    (hp : '$' ∉ p) (hname : name ≠ []) (hbrace : '}' ∉ name) :
    (env (String.mk name) = some v → v ≠ "" →
      resolveEnvChars env (p ++ ('$' :: '{' :: (name ++ '}' :: q))) =
        p ++ (v.data ++ resolveEnvChars env q))
    ∧ (env (String.mk name) = none →
      resolveEnvChars env (p ++ ('$' :: '{' :: (name ++ '}' :: q))) =
        p ++ ('$' :: '{' :: (name ++ '}' :: resolveEnvChars env q)))
    ∧ (env (String.mk name) = some "" →
      resolveEnvChars env (p ++ ('$' :: '{' :: (name ++ '}' :: q))) =
        p ++ ('$' :: '{' :: (name ++ '}' :: resolveEnvChars env q)))
    ∧ (∀ s, resolveEnvVariables env (JValue.str s) =
        JValue.str (resolveEnvString env s))
    ∧ (∀ xs, resolveEnvVariables env (JValue.arr xs) =
        JValue.arr (xs.map (resolveEnvVariables env)))
    ∧ (∀ fs, resolveEnvVariables env (JValue.obj fs) =
        JValue.obj (fs.map (fun kv => (kv.1, resolveEnvVariables env kv.2))))
    ∧ (∀ n : Int, resolveEnvVariables env (JValue.num n) = JValue.num n)
    ∧ (∀ b : Bool, resolveEnvVariables env (JValue.bool b) = JValue.bool b)
    ∧ resolveEnvVariables env JValue.null = JValue.null := by
  have hbase := resolveEnvChars_placeholder env name q hname hbrace
  have happ := resolveEnvChars_append_nodollar env p
    ('$' :: '{' :: (name ++ '}' :: q)) hp
  refine ⟨?_, ?_, ?_, fun s => rfl, ?_, ?_, fun n => rfl, fun b => rfl, rfl⟩
  · intro hset hv
    rw [happ, hbase, hset]
    simp [hv]
  · intro hunset
    rw [happ, hbase, hunset]
    simp
  · intro hempty
    rw [happ, hbase, hempty]
    simp
  · intro xs
    rw [show resolveEnvVariables env (JValue.arr xs) =
        JValue.arr (resolveEnvList env xs) from rfl]
    rw [resolveEnvList_eq_map]
  · intro fs
    rw [show resolveEnvVariables env (JValue.obj fs) =
        JValue.obj (resolveEnvFields env fs) from rfl]
    rw [resolveEnvFields_eq_map]

/-- Witness for the amended C7 statement: prefix `ab`, name `HOME`, value
`/root`, and an unset variable. -/
theorem resolveEnvVariables_substitution_witness :
    (String.mk (resolveEnvChars (fun n => if n = "HOME" then some "/root"
        else none) ("ab${HOME}cd".data)) = "ab/rootcd")
    ∧ (String.mk (resolveEnvChars (fun _ => (none : Option String))
        ("ab${HOME}cd".data)) = "ab${HOME}cd") := by
  have hcd1 : resolveEnvChars (fun n => if n = "HOME" then some "/root"
      else none) ['c', 'd'] = ['c', 'd'] := by
    rw [show (['c', 'd'] : List Char) = ['c', 'd'] ++ [] from rfl,
      resolveEnvChars_append_nodollar _ _ _ (by decide), resolveEnvChars_nil]
  have hcd2 : resolveEnvChars (fun _ => (none : Option String))
      ['c', 'd'] = ['c', 'd'] := by
    rw [show (['c', 'd'] : List Char) = ['c', 'd'] ++ [] from rfl,
      resolveEnvChars_append_nodollar _ _ _ (by decide), resolveEnvChars_nil]
  have h1 := (resolveEnvVariables_substitution
    (fun n => if n = "HOME" then some "/root" else none)
    ['a', 'b'] ['H', 'O', 'M', 'E'] ['c', 'd'] "/root"
    (by decide) (by decide) (by decide)).1 (by rfl) (by decide)
  have h2 := (resolveEnvVariables_substitution
    (fun _ => (none : Option String))
    ['a', 'b'] ['H', 'O', 'M', 'E'] ['c', 'd'] ""
    (by decide) (by decide) (by decide)).2.1 rfl
  constructor
  · rw [show ("ab${HOME}cd".data) =
        ['a', 'b'] ++ ('$' :: '{' :: (['H', 'O', 'M', 'E'] ++ '}' :: ['c', 'd']))
        from rfl]
    rw [h1, hcd1]
    decide
  · rw [show ("ab${HOME}cd".data) =
        ['a', 'b'] ++ ('$' :: '{' :: (['H', 'O', 'M', 'E'] ++ '}' :: ['c', 'd']))
        from rfl]
    rw [h2, hcd2]
    decide

/-- Witness for C6 at a concrete output directory: the legacy file is
moved, and `notes.md` is skipped. -/
theorem migrateExistingJournals_moves_and_skips_witness :
    migrationMoves "journals" ["2024-01-15.md"] =
      [("2024-01-15.md", "journals" ++ "/daily/2024/week-03/2024-01-15.md")]
    ∧ "notes.md" ∉ (migrationMoves "journals" ["notes.md"]).map Prod.fst :=
  ⟨migrateExistingJournals_moves_and_skips.1 "journals",
    migrateExistingJournals_moves_and_skips.2 "journals" ["notes.md"]
      "notes.md" (by decide) (by decide)⟩

/-- Witness for C8 on a concrete sync-state file holding a github entry,
updating slack. -/
theorem setSyncState_fresh_stamp_and_frame_witness :
    ∃ entry,
      alGet (setSyncState [("github", JValue.obj [])] "slack"
          [("totalActivities", JValue.num 5)] "2024-01-15T00:00:00Z") "slack"
        = some (JValue.obj entry)
      ∧ alGet entry "lastSync" = some (JValue.str "2024-01-15T00:00:00Z")
      ∧ (∀ k, k ≠ "lastSync" → alGet entry k =
          (alGetLast [("totalActivities", JValue.num 5)] k).or
            (alGet (objFieldsOf
              (alGet [("github", JValue.obj [])] "slack")) k))
      ∧ (∀ y, y ≠ "slack" →
          alGet (setSyncState [("github", JValue.obj [])] "slack"
            [("totalActivities", JValue.num 5)] "2024-01-15T00:00:00Z") y =
          alGet [("github", JValue.obj [])] y)
      ∧ (∀ y, (alGet [("github", JValue.obj [])] y).isSome →
          (alGet (setSyncState [("github", JValue.obj [])] "slack"
            [("totalActivities", JValue.num 5)]
            "2024-01-15T00:00:00Z") y).isSome) :=
  setSyncState_fresh_stamp_and_frame [("github", JValue.obj [])] "slack"
    [("totalActivities", JValue.num 5)] "2024-01-15T00:00:00Z"

/-- Witness for C9 at a concrete message text. -/
theorem extractIntent_nonempty_complete_witness :
    extractIntent "quick fyi" "general" ≠ []
    ∧ ("question" ∈ extractIntent "quick fyi" "general" ↔
        questionCond "quick fyi" = true)
    ∧ ("decision" ∈ extractIntent "quick fyi" "general" ↔
        decisionCond "quick fyi" = true)
    ∧ ("status_update" ∈ extractIntent "quick fyi" "general" ↔
        statusCond "quick fyi" = true)
    ∧ ("coordination" ∈ extractIntent "quick fyi" "general" ↔
        coordinationCond "quick fyi" = true)
    ∧ ("problem_solving" ∈ extractIntent "quick fyi" "general" ↔
        problemCond "quick fyi" = true)
    ∧ ("information_sharing" ∈ extractIntent "quick fyi" "general" ↔
        infoCond "quick fyi" = true)
    ∧ (questionCond "quick fyi" = false → decisionCond "quick fyi" = false →
        statusCond "quick fyi" = false →
        coordinationCond "quick fyi" = false →
        problemCond "quick fyi" = false → infoCond "quick fyi" = false →
        extractIntent "quick fyi" "general" =
          ["general_communication"]) :=
  extractIntent_nonempty_complete "quick fyi" "general"

end AJournal
